import Mathlib

/-!
# Verification of the LMS growth-statistics engine

Shallow embedding of `src/growth_dash/gc_stats/core.py` and
`src/growth_dash/gc_stats/gc_stats.py` (the final copies of the modules).

Embedding conventions:
* Python floats are modelled as real numbers (`ℝ`).
* Python operations that can raise are modelled in `Except PyError`:
  `a / b` raises `ZeroDivisionError` when `b == 0` (`pydiv`); `math.log`
  raises `ValueError` on non-positive input (`pylog`); `math.sqrt` raises
  `ValueError` on negative input (`pysqrt`); `math.pow` raises `ValueError`
  on a negative base with a non-integral exponent and on a zero base with a
  negative exponent (`pypow`).  A reference to an identifier that is not
  bound in the module raises `NameError` (constructor `PyError.nameError`
  recording the unbound name); subscripting `None` raises `TypeError`.
* Divisions whose guard makes the denominator provably nonzero
  (`1/(1+p*abs(x))` in `erf`, the interpolation weight in `get_lms_for_x`
  whose branch condition forces `row[i].x < x <= row[i+1].x`, and division
  by the literal `100`) are modelled as plain real division.
* Python dictionaries keyed by strings are modelled as association lists
  with first-match lookup (`alookup`); the keys used by the code are
  pairwise distinct, so first-match and last-write agree.
* The pandas data frame produced by `lms_to_percentiles` is modelled as the
  association list of its rows: `x` paired with the list of values at the
  requested percentiles, in request order.
* `constants.py` is imported by the sources but absent from them; the
  handful of constants the embedded code needs are modelled from the spec
  (see `MALE`, `FEMALE`, `DEFAULT_PERCENTILES`).
-/

/-- Exceptions the embedded Python code can raise. -/
inductive PyError where
  | zeroDivisionError : PyError
  | valueError : PyError
  | typeError : PyError
  | keyError : PyError
  | nameError : String → PyError
deriving DecidableEq

noncomputable section

/-- Python `a / b`: raises `ZeroDivisionError` when the denominator is zero. -/
def pydiv (a b : ℝ) : Except PyError ℝ :=
  if b = 0 then .error .zeroDivisionError else .ok (a / b)

/-- Python `math.log a`: raises `ValueError` on non-positive input. -/
def pylog (a : ℝ) : Except PyError ℝ :=
  if a ≤ 0 then .error .valueError else .ok (Real.log a)

/-- Python `math.sqrt a`: raises `ValueError` on negative input. -/
def pysqrt (a : ℝ) : Except PyError ℝ :=
  if a < 0 then .error .valueError else .ok (Real.sqrt a)

open Classical in
/-- Python `math.pow x y`: raises `ValueError` on a negative base with a
non-integral exponent and on a zero base with a negative exponent;
otherwise the real power `Real.rpow`. -/
def pypow (x y : ℝ) : Except PyError ℝ :=
  if x < 0 ∧ ¬ ∃ n : ℤ, y = (n : ℝ) then .error .valueError
  else if x = 0 ∧ y < 0 then .error .valueError
  else .ok (x ^ y)

/-! ## `core.py` — general statistics functions -/

/-- `core.weighted_avg(a, b, weight)`: `b * weight + a * (1 - weight)`. -/
def weighted_avg (a b weight : ℝ) : ℝ :=
  b * weight + a * (1 - weight)

/-- Constant `a1` of `core.erf`. -/
def erfA1 : ℝ := 0.254829592
/-- Constant `a2` of `core.erf`. -/
def erfA2 : ℝ := -0.284496736
/-- Constant `a3` of `core.erf`. -/
def erfA3 : ℝ := 1.421413741
/-- Constant `a4` of `core.erf`. -/
def erfA4 : ℝ := -1.453152027
/-- Constant `a5` of `core.erf`. -/
def erfA5 : ℝ := 1.061405429
/-- Constant `p` of `core.erf`. -/
def erfP : ℝ := 0.3275911

/-- `core.erf(x)`: the Abramowitz–Stegun 7.1.26 approximation as coded:
`t = 1/(1 + p*abs(x))`, then
`1 - (((((a5*t + a4)*t) + a3)*t + a2)*t + a1) * t * exp(-x*x)`.
The denominator `1 + p*abs(x)` is at least `1`, so the division cannot
raise and is modelled as plain division. -/
def erf (x : ℝ) : ℝ :=
  let t : ℝ := 1 / (1 + erfP * |x|)
  1 - (((((erfA5 * t + erfA4) * t) + erfA3) * t + erfA2) * t + erfA1) * t *
    Real.exp (-(x * x))

/-- Coefficient `a[0]` of `core.normsinv`. -/
def nsA0 : ℝ := -39.69683028665376
/-- Coefficient `a[1]` of `core.normsinv`. -/
def nsA1 : ℝ := 220.9460984245205
/-- Coefficient `a[2]` of `core.normsinv`. -/
def nsA2 : ℝ := -275.9285104469687
/-- Coefficient `a[3]` of `core.normsinv`. -/
def nsA3 : ℝ := 138.3577518672690
/-- Coefficient `a[4]` of `core.normsinv`. -/
def nsA4 : ℝ := -30.66479806614716
/-- Coefficient `a[5]` of `core.normsinv`. -/
def nsA5 : ℝ := 2.506628277459239
/-- Coefficient `b[0]` of `core.normsinv`. -/
def nsB0 : ℝ := -54.47609879822406
/-- Coefficient `b[1]` of `core.normsinv`. -/
def nsB1 : ℝ := 161.5858368580409
/-- Coefficient `b[2]` of `core.normsinv`. -/
def nsB2 : ℝ := -155.6989798598866
/-- Coefficient `b[3]` of `core.normsinv`. -/
def nsB3 : ℝ := 66.80131188771972
/-- Coefficient `b[4]` of `core.normsinv`. -/
def nsB4 : ℝ := -13.28068155288572
/-- Coefficient `c[0]` of `core.normsinv`. -/
def nsC0 : ℝ := -0.007784894002430293
/-- Coefficient `c[1]` of `core.normsinv`. -/
def nsC1 : ℝ := -0.3223964580411365
/-- Coefficient `c[2]` of `core.normsinv`. -/
def nsC2 : ℝ := -2.400758277161838
/-- Coefficient `c[3]` of `core.normsinv`. -/
def nsC3 : ℝ := -2.549732539343734
/-- Coefficient `c[4]` of `core.normsinv`. -/
def nsC4 : ℝ := 4.374664141464968
/-- Coefficient `c[5]` of `core.normsinv`. -/
def nsC5 : ℝ := 2.938163982698783
/-- Coefficient `d[0]` of `core.normsinv`. -/
def nsD0 : ℝ := 0.007784695709041462
/-- Coefficient `d[1]` of `core.normsinv`. -/
def nsD1 : ℝ := 0.3224671290700398
/-- Coefficient `d[2]` of `core.normsinv`. -/
def nsD2 : ℝ := 2.445134137142996
/-- Coefficient `d[3]` of `core.normsinv`. -/
def nsD3 : ℝ := 3.754408661907416

/-- Break-point `plow` of `core.normsinv`. -/
def plow : ℝ := 0.02425
/-- Break-point `phigh = 1 - plow` of `core.normsinv`. -/
def phigh : ℝ := 1 - plow

/-- Numerator polynomial of the tail regions of `core.normsinv`:
`(((((c[0]*q + c[1])*q + c[2])*q + c[3])*q + c[4])*q + c[5]`. -/
def acklamC (q : ℝ) : ℝ :=
  ((((nsC0 * q + nsC1) * q + nsC2) * q + nsC3) * q + nsC4) * q + nsC5

/-- Denominator polynomial of the tail regions of `core.normsinv`:
`((((d[0]*q + d[1])*q + d[2])*q + d[3])*q + 1`. -/
def acklamD (q : ℝ) : ℝ :=
  (((nsD0 * q + nsD1) * q + nsD2) * q + nsD3) * q + 1

/-- Numerator polynomial of the central region of `core.normsinv`:
`(((((a[0]*r + a[1])*r + a[2])*r + a[3])*r + a[4])*r + a[5]`. -/
def acklamA (r : ℝ) : ℝ :=
  ((((nsA0 * r + nsA1) * r + nsA2) * r + nsA3) * r + nsA4) * r + nsA5

/-- Denominator polynomial of the central region of `core.normsinv`:
`(((((b[0]*r + b[1])*r + b[2])*r + b[3])*r + b[4])*r + 1`. -/
def acklamB (r : ℝ) : ℝ :=
  ((((nsB0 * r + nsB1) * r + nsB2) * r + nsB3) * r + nsB4) * r + 1

/-- `core.normsinv(p)`: Acklam's rational approximation of the inverse
standard-normal CDF, three regions split at `p < plow` and `phigh < p`.
`math.log`, `math.sqrt` and the final division are modelled through their
checked counterparts. -/
def normsinv (p : ℝ) : Except PyError ℝ :=
  if p < plow then
    match pylog p with
    | .error e => .error e
    | .ok lg =>
      match pysqrt (-2 * lg) with
      | .error e => .error e
      | .ok q => pydiv (acklamC q) (acklamD q)
  else if phigh < p then
    match pylog (1 - p) with
    | .error e => .error e
    | .ok lg =>
      match pysqrt (-2 * lg) with
      | .error e => .error e
      | .ok q => (pydiv (acklamC q) (acklamD q)).map Neg.neg
  else
    pydiv (acklamA ((p - 0.5) * (p - 0.5)) * (p - 0.5))
      (acklamB ((p - 0.5) * (p - 0.5)))

/-- `core.normsdist(z)`: the source computes `sign = z / abs(z)` (which
raises `ZeroDivisionError` at `z == 0`) and then calls `Math.erf` — but the
name `Math` is not bound in `core.py` (only lowercase `math` is imported),
so for every nonzero `z` evaluation raises `NameError` at that call. -/
def normsdist (z : ℝ) : Except PyError ℝ :=
  match pydiv z |z| with
  | .error e => .error e
  | .ok _ => .error (.nameError "Math")

/-- `core.zscore_to_x(Z, L, M, S)`: `M * math.pow(1 + L*S*Z, 1/L)` when
`L != 0`; the `L == 0` branch is written `M * Math.exp(S * Z)` and the name
`Math` is unbound in `core.py`, so that branch raises `NameError`. -/
def zscore_to_x (Z L M S : ℝ) : Except PyError ℝ :=
  if L ≠ 0 then (pypow (1 + L * S * Z) (1 / L)).map (fun y => M * y)
  else .error (.nameError "Math")

/-- `core.x_to_zscore(x, L, M, S)`: both branches of the source body
reference the unbound names `X` (the parameter is lowercase `x`) and
`Math` (only lowercase `math` is imported), so evaluating either branch
raises `NameError` on `Math`, the function being looked up first. -/
def x_to_zscore (x L M S : ℝ) : Except PyError ℝ :=
  if L ≠ 0 then .error (.nameError "Math") else .error (.nameError "Math")

/-- `core.percentile_to_x(percentile, L, M, S)`:
`zscore_to_x(normsinv(percentile/100), L, M, S)`. -/
def percentile_to_x (percentile L M S : ℝ) : Except PyError ℝ :=
  match normsinv (percentile / 100) with
  | .error e => .error e
  | .ok Z => zscore_to_x Z L M S

/-- `core.x_to_percentile(x, L, M, S)`: `normsdist(x_to_zscore(x, L, M, S))`. -/
def x_to_percentile (x L M S : ℝ) : Except PyError ℝ :=
  match x_to_zscore x L M S with
  | .error e => .error e
  | .ok Z => normsdist Z

/-! ## `gc_stats.py` — LMS tables, interpolation, curves and cache -/

/-- One row of an LMS lookup table: `{'x': …, 'L': …, 'M': …, 'S': …}`. -/
structure LMSRow where
  x : ℝ
  L : ℝ
  M : ℝ
  S : ℝ

/-- An `(L, M, S)` triple, the dictionary `get_lms_for_x` returns. -/
structure LMS where
  L : ℝ
  M : ℝ
  S : ℝ

/-- First-match association-list lookup, modelling Python dictionary access
(`key in dict` / `dict[key]`); all keys the code stores are distinct. -/
def alookup {β : Type} (key : String) : List (String × β) → Option β
  | [] => none
  | (k, v) :: rest => if key = k then some v else alookup key rest

/-- `GC_DATA`: chart type → sex → LMS table (the `'data'` level of the JSON
is folded into the inner mapping). -/
def GCData : Type := List (String × List (String × List LMSRow))

/-- `gc_stats.get_lms_table(gc_type, sex)`: `None` when either key is
missing, otherwise `GC_DATA[gc_type]['data'][sex]`. -/
def get_lms_table (d : GCData) (gc_type sex : String) : Option (List LMSRow) :=
  match alookup gc_type d with
  | none => none
  | some bySex => alookup sex bySex

/-- `gc_stats.get_lms_for_x(LMS_table, x)`: scan the rows in order; return
an exact match's `(L, M, S)` unmodified; between two consecutive rows
(`row[i].x < x <= row[i+1].x`) return the componentwise `weighted_avg` with
`weight = (x - row[i].x) / (row[i+1].x - row[i].x)`; `none` past the ends.
The branch guard forces `row[i].x < row[i+1].x`, so the weight's
denominator is nonzero and the division is modelled as plain division. -/
def get_lms_for_x : List LMSRow → ℝ → Option LMS
  | [], _ => none
  | [r], x => if x = r.x then some ⟨r.L, r.M, r.S⟩ else none
  | r1 :: r2 :: rest, x =>
    if x = r1.x then some ⟨r1.L, r1.M, r1.S⟩
    else if r1.x < x ∧ x ≤ r2.x then
      some ⟨weighted_avg r1.L r2.L ((x - r1.x) / (r2.x - r1.x)),
            weighted_avg r1.M r2.M ((x - r1.x) / (r2.x - r1.x)),
            weighted_avg r1.S r2.S ((x - r1.x) / (r2.x - r1.x))⟩
    else get_lms_for_x (r2 :: rest) x

/-- A percentile curve: one entry per table row, pairing the row's `x` with
the values at the requested percentiles in request order (the data frame
`lms_to_percentiles` builds, keyed by `x`). -/
def Curve : Type := List (ℝ × List ℝ)

/-- The inner list comprehension of `gc_stats.lms_to_percentiles`:
`[percentile_to_x(p, row['L'], row['M'], row['S']) for p in percentiles]`,
propagating the first raised exception. -/
def row_values (row : LMSRow) : List ℝ → Except PyError (List ℝ)
  | [] => .ok []
  | p :: rest =>
    match percentile_to_x p row.L row.M row.S with
    | .error e => .error e
    | .ok v =>
      match row_values row rest with
      | .error e => .error e
      | .ok vs => .ok (v :: vs)

/-- `gc_stats.lms_to_percentiles(LMS_table, percentiles)`: one curve row per
table row, in table order. -/
def lms_to_percentiles : List LMSRow → List ℝ → Except PyError Curve
  | [], _ => .ok []
  | row :: rest, ps =>
    match row_values row ps with
    | .error e => .error e
    | .ok vs =>
      match lms_to_percentiles rest ps with
      | .error e => .error e
      | .ok c => .ok ((row.x, vs) :: c)

/-- Modelled from the spec: `constants.py` is imported by `gc_stats.py` but
absent from the sources; the male sex key (value as in the repository's
earlier `gc_stats` module, `SEX.M = 'male'`). -/
def MALE : String := "male"

/-- Modelled from the spec: `constants.py` is absent from the sources; the
female sex key (`SEX.F = 'female'` in the repository's earlier module). -/
def FEMALE : String := "female"

/-- Modelled from the spec: `constants.py` is absent from the sources; the
fixed default percentile list (the spec's "fixed default list"; value as in
the repository's earlier module, `CACHED_PERCENTILES = [2,5,10,25,50,75,90,95,98]`). -/
def DEFAULT_PERCENTILES : List ℝ := [2, 5, 10, 25, 50, 75, 90, 95, 98]

/-- `_percentile_cache`: chart type → sex → precomputed curve. -/
def Cache : Type := List (String × List (String × Curve))

/-- `gc_stats.load_percentile_cache(gc_data, gc_types)`: for each chart type
in order, compute the default-percentile curves for both sexes (the direct
subscripts `gc_data[gc_type]['data'][sex]` raise `KeyError` when a key is
missing) and store them in the cache. -/
def load_percentile_cache (d : GCData) : List String → Except PyError Cache
  | [] => .ok []
  | t :: ts =>
    match get_lms_table d t MALE with
    | none => .error .keyError
    | some tabM =>
      match lms_to_percentiles tabM DEFAULT_PERCENTILES with
      | .error e => .error e
      | .ok cm =>
        match get_lms_table d t FEMALE with
        | none => .error .keyError
        | some tabF =>
          match lms_to_percentiles tabF DEFAULT_PERCENTILES with
          | .error e => .error e
          | .ok cf =>
            match load_percentile_cache d ts with
            | .error e => .error e
            | .ok rest => .ok ((t, [(MALE, cm), (FEMALE, cf)]) :: rest)

/-- `gc_stats.get_percentile_lines(gc_type, sex, percentiles)`: `{}` (here
`none`) when the table is missing; the cached curve when `percentiles ==
DEFAULT_PERCENTILES and gc_type in _percentile_cache`; otherwise a fresh
`lms_to_percentiles` computation.  The function never writes to the cache,
so the embedding returns the cache unchanged as second component. -/
def get_percentile_lines (cache : Cache) (d : GCData) (gc_type sex : String)
    (percentiles : List ℝ) : Except PyError (Option Curve) × Cache :=
  (match get_lms_table d gc_type sex with
   | none => .ok none
   | some table =>
     if percentiles = DEFAULT_PERCENTILES ∧ (alookup gc_type cache).isSome then
       match alookup gc_type cache with
       | some bySex =>
         match alookup sex bySex with
         | some curve => .ok (some curve)
         | none => .error .keyError
       | none => .error .keyError
     else
       match lms_to_percentiles table percentiles with
       | .error e => .error e
       | .ok c => .ok (some c)
  , cache)

/-- `gc_stats.percentile(gc_type, sex, x, val)`: `None` when the table is
missing; otherwise it subscripts the result of `get_lms_for_x` without a
`None` check, so an out-of-range `x` raises `TypeError` at `LMS['L']`. -/
def percentile (d : GCData) (gc_type sex : String) (x val : ℝ) :
    Except PyError (Option ℝ) :=
  match get_lms_table d gc_type sex with
  | none => .ok none
  | some table =>
    match get_lms_for_x table x with
    | none => .error .typeError
    | some lms =>
      match x_to_percentile val lms.L lms.M lms.S with
      | .error e => .error e
      | .ok y => .ok (some y)

/-- `gc_stats.zscore(gc_type, sex, x, val)`: same shape as `percentile`,
ending in `x_to_zscore`. -/
def zscore (d : GCData) (gc_type sex : String) (x val : ℝ) :
    Except PyError (Option ℝ) :=
  match get_lms_table d gc_type sex with
  | none => .ok none
  | some table =>
    match get_lms_for_x table x with
    | none => .error .typeError
    | some lms =>
      match x_to_zscore val lms.L lms.M lms.S with
      | .error e => .error e
      | .ok y => .ok (some y)

/-- A two-row sample table (the spec's §8 end-to-end example table). -/
def sampleTable : List LMSRow :=
  [⟨0, 1, 3.3, 0.1⟩, ⟨1, 1, 4.5, 0.12⟩]

/-- A sample dataset holding `sampleTable` for both sexes of one chart type. -/
def sampleGCData : GCData :=
  [("WHO_WEIGHT", [("male", sampleTable), ("female", sampleTable)])]

end

/-! ## Theorems -/

/-- C8: for every `a`, `b` and `weight`, `weighted_avg(a, b, weight)` equals
`a + (b - a) * weight`, with no restriction on `weight` (linear
extrapolation outside `[0, 1]`, never an error). -/
theorem weighted_avg_linear (a b weight : ℝ) :
    weighted_avg a b weight = a + (b - a) * weight := by
  unfold weighted_avg; ring

/-- C10: the `erf` implementation is an even function — it feeds `abs(x)`
into the polynomial and `x*x` into the exponential and never restores the
sign, so `erf(-x) = erf(x)` for every `x`. -/
theorem erf_even (x : ℝ) : erf (-x) = erf x := by
  unfold erf
  rw [abs_neg, neg_mul_neg]

/-- C3: every call of `x_to_zscore` raises `NameError` (the body references
the unbound names `X` and `Math`), so it never returns
`((x/M)^L - 1)/(L*S)` or `ln(x/M)/S` as the claim states. -/
theorem x_to_zscore_always_nameerror (x L M S : ℝ) :
    x_to_zscore x L M S = .error (.nameError "Math") := by
  unfold x_to_zscore
  exact ite_self _

/-- C2: `normsdist(0)` computes `sign = 0 / abs(0)` and raises
`ZeroDivisionError` instead of returning `0.5` as the claim states. -/
theorem normsdist_zero_raises : normsdist 0 = .error .zeroDivisionError := by
  simp [normsdist, pydiv]

/-- C1: with a two-row table tabulated on `x ∈ [0, 1]`, looking up `x = -1`
(below the first row) via `percentile` or `x = 25` (above the last row) via
`zscore` raises `TypeError` — `get_lms_for_x` returns `None` and the caller
subscripts it — instead of returning an explicit "not available" result as
the claim states. -/
theorem percentile_zscore_out_of_range_raise :
    percentile sampleGCData "WHO_WEIGHT" "male" (-1) 4 = .error .typeError ∧
    zscore sampleGCData "WHO_WEIGHT" "male" 25 4 = .error .typeError := by
  constructor <;>
    norm_num [percentile, zscore, get_lms_table, alookup, sampleGCData,
      sampleTable, get_lms_for_x]

/-- C5: `percentile_to_x(50, L, M, S)` on the `L = 0` branch raises
`NameError` (the `L == 0` branch of `zscore_to_x` calls the unbound
`Math.exp`) instead of returning `M` as the claim states; shown at
`L = 0, M = 3, S = 1/10`. -/
theorem percentile_to_x_median_L0_raises :
    percentile_to_x 50 0 3 (1 / 10) = .error (.nameError "Math") := by
  have h1 : ¬ ((50 : ℝ) / 100 < plow) := by norm_num [plow]
  have h2 : ¬ (phigh < (50 : ℝ) / 100) := by norm_num [phigh, plow]
  have h3 : acklamB (((50 : ℝ) / 100 - 0.5) * ((50 : ℝ) / 100 - 0.5)) ≠ 0 := by
    norm_num [acklamB, nsB0, nsB1, nsB2, nsB3, nsB4]
  unfold percentile_to_x normsinv
  rw [if_neg h1, if_neg h2]
  unfold pydiv
  rw [if_neg h3]
  unfold zscore_to_x
  simp

/-- Helper for C7: `weighted_avg` at weight `1` is the second endpoint. -/
theorem weighted_avg_one (a b : ℝ) : weighted_avg a b 1 = b := by
  unfold weighted_avg; ring

/-- C7: in a table sorted strictly ascending by `x`, `get_lms_for_x` at an
`x` equal to a tabulated row's `x` returns that row's `(L, M, S)`
unmodified (for a non-first row the code takes the interpolation branch
with weight exactly `1`, which reproduces the row's values). -/
theorem get_lms_for_x_exact_match (pre post : List LMSRow) (r : LMSRow)
    (hsort : (pre ++ r :: post).Pairwise (fun u v => u.x < v.x)) :
    get_lms_for_x (pre ++ r :: post) r.x = some ⟨r.L, r.M, r.S⟩ := by
  induction pre with
  | nil =>
    cases post with
    | nil => simp [get_lms_for_x]
    | cons r2 rest => simp [get_lms_for_x]
  | cons p1 pre ih =>
    obtain ⟨hhead, htail⟩ := List.pairwise_cons.mp hsort
    have hlt : p1.x < r.x :=
      hhead r (List.mem_append_right pre (List.mem_cons_self r post))
    have hne : r.x ≠ p1.x := (ne_of_lt hlt).symm
    cases hpre : pre with
    | nil =>
      subst hpre
      have hw : (r.x - p1.x) / (r.x - p1.x) = 1 :=
        div_self (sub_ne_zero.mpr hne)
      simp only [List.cons_append, List.nil_append, get_lms_for_x]
      rw [if_neg hne, if_pos ⟨hlt, le_refl r.x⟩, hw]
      simp [weighted_avg_one]
    | cons q pre2 =>
      subst hpre
      have hq : q.x < r.x := by
        have := List.pairwise_cons.mp htail
        exact this.1 r (List.mem_append_right pre2 (List.mem_cons_self r post))
      simp only [List.cons_append, get_lms_for_x]
      rw [if_neg hne, if_neg (by push_neg; intro _; linarith)]
      exact ih htail

/-- Witness for C7: a concrete sorted two-row table where the second row's
`x` is looked up and the row comes back unmodified. -/
theorem get_lms_for_x_exact_match_witness :
    (([⟨23, 1, 2, 3⟩] : List LMSRow) ++ (⟨24, 4, 5, 6⟩ : LMSRow) :: []).Pairwise
      (fun u v => u.x < v.x) ∧
    get_lms_for_x (([⟨23, 1, 2, 3⟩] : List LMSRow) ++ (⟨24, 4, 5, 6⟩ : LMSRow) :: [])
      (24 : ℝ) = some ⟨4, 5, 6⟩ :=
  ⟨by norm_num [List.pairwise_cons],
   get_lms_for_x_exact_match [⟨23, 1, 2, 3⟩] [] ⟨24, 4, 5, 6⟩
     (by norm_num [List.pairwise_cons])⟩

/-- Helper for C4: a cache built by `load_percentile_cache` contains an
entry (holding exactly a male and a female curve) for each loaded chart
type and nothing for any other chart type. -/
theorem load_cache_lookup (d : GCData) (ts : List String) (c : Cache)
    (h : load_percentile_cache d ts = .ok c) (t : String) :
    (t ∈ ts → ∃ cm cf, alookup t c = some [(MALE, cm), (FEMALE, cf)]) ∧
    (t ∉ ts → alookup t c = none) := by
  induction ts generalizing c with
  | nil =>
    unfold load_percentile_cache at h
    cases h
    simp [alookup]
  | cons t1 ts ih =>
    unfold load_percentile_cache at h
    cases h1 : get_lms_table d t1 MALE with
    | none => simp only [h1] at h; exact Except.noConfusion h
    | some tabM =>
      simp only [h1] at h
      cases h2 : lms_to_percentiles tabM DEFAULT_PERCENTILES with
      | error e => simp only [h2] at h; exact Except.noConfusion h
      | ok cm =>
        simp only [h2] at h
        cases h3 : get_lms_table d t1 FEMALE with
        | none => simp only [h3] at h; exact Except.noConfusion h
        | some tabF =>
          simp only [h3] at h
          cases h4 : lms_to_percentiles tabF DEFAULT_PERCENTILES with
          | error e => simp only [h4] at h; exact Except.noConfusion h
          | ok cf =>
            simp only [h4] at h
            cases h5 : load_percentile_cache d ts with
            | error e => simp only [h5] at h; exact Except.noConfusion h
            | ok rest =>
              simp only [h5] at h
              cases h
              obtain ⟨ihmem, ihout⟩ := ih rest h5
              by_cases ht : t = t1
              · subst ht
                refine ⟨fun _ => ⟨cm, cf, ?_⟩, fun hout => absurd ?_ hout⟩
                · simp [alookup]
                · exact List.mem_cons_self t ts
              · constructor
                · intro hmem
                  have : t ∈ ts := by
                    rcases List.mem_cons.mp hmem with h' | h'
                    · exact absurd h' ht
                    · exact h'
                  obtain ⟨cm', cf', hl⟩ := ihmem this
                  exact ⟨cm', cf', by simpa [alookup, ht] using hl⟩
                · intro hout
                  have : t ∉ ts := fun h' => hout (List.mem_cons_of_mem _ h')
                  simpa [alookup, ht] using ihout this

/-- C4: with the cache built at initialization for the chart types `ts`,
`get_percentile_lines` (a) never changes the cache, (b) returns the
precomputed cached curve exactly when the requested percentile list equals
`DEFAULT_PERCENTILES` (same elements, same order) and the chart type is one
of the pre-populated `ts`, and (c) for any other percentile list or chart
type recomputes the curve from the table via `lms_to_percentiles`. -/
theorem get_percentile_lines_cache_policy
    (d : GCData) (ts : List String) (c : Cache) (t s : String)
    (ps : List ℝ) (table : List LMSRow)
    (hload : load_percentile_cache d ts = .ok c)
    (htab : get_lms_table d t s = some table) :
    (get_percentile_lines c d t s ps).2 = c ∧
    (ps = DEFAULT_PERCENTILES → t ∈ ts → s = MALE ∨ s = FEMALE →
      ∃ bySex curve, alookup t c = some bySex ∧ alookup s bySex = some curve ∧
        (get_percentile_lines c d t s ps).1 = .ok (some curve)) ∧
    (ps ≠ DEFAULT_PERCENTILES ∨ t ∉ ts →
      (get_percentile_lines c d t s ps).1 =
        Except.map some (lms_to_percentiles table ps)) := by
  refine ⟨rfl, ?_, ?_⟩
  · intro hps hmem hs
    obtain ⟨cm, cf, hl⟩ := (load_cache_lookup d ts c hload t).1 hmem
    rcases hs with hs | hs
    · refine ⟨[(MALE, cm), (FEMALE, cf)], cm, hl, by simp [alookup, hs], ?_⟩
      simp only [get_percentile_lines, htab]
      rw [if_pos ⟨hps, by rw [hl]; rfl⟩, hl]
      simp [alookup, hs]
    · refine ⟨[(MALE, cm), (FEMALE, cf)], cf, hl, ?_, ?_⟩
      · simp [alookup, hs, MALE, FEMALE]
      · simp only [get_percentile_lines, htab]
        rw [if_pos ⟨hps, by rw [hl]; rfl⟩, hl]
        simp [alookup, hs, MALE, FEMALE]
  · intro hmiss
    simp only [get_percentile_lines, htab]
    have hcond : ¬ (ps = DEFAULT_PERCENTILES ∧ (alookup t c).isSome) := by
      rcases hmiss with hps | hout
      · exact fun hc => hps hc.1
      · intro hc
        rw [(load_cache_lookup d ts c hload t).2 hout] at hc
        exact absurd hc.2 (by simp)
    rw [if_neg hcond]
    cases lms_to_percentiles table ps <;> simp [Except.map]

/-- Witness for C4: the empty initialization list gives the empty cache, a
chart type outside it, and the recompute branch on the sample dataset. -/
theorem get_percentile_lines_cache_policy_witness :
    (get_percentile_lines [] sampleGCData "WHO_WEIGHT" "male"
      DEFAULT_PERCENTILES).2 = [] ∧
    (DEFAULT_PERCENTILES = DEFAULT_PERCENTILES →
      "WHO_WEIGHT" ∈ ([] : List String) → "male" = MALE ∨ "male" = FEMALE →
      ∃ bySex curve, alookup "WHO_WEIGHT" ([] : Cache) = some bySex ∧
        alookup "male" bySex = some curve ∧
        (get_percentile_lines [] sampleGCData "WHO_WEIGHT" "male"
          DEFAULT_PERCENTILES).1 = .ok (some curve)) ∧
    (DEFAULT_PERCENTILES ≠ DEFAULT_PERCENTILES ∨
        "WHO_WEIGHT" ∉ ([] : List String) →
      (get_percentile_lines [] sampleGCData "WHO_WEIGHT" "male"
        DEFAULT_PERCENTILES).1 =
        Except.map some (lms_to_percentiles sampleTable DEFAULT_PERCENTILES)) :=
  get_percentile_lines_cache_policy sampleGCData [] [] "WHO_WEIGHT" "male"
    DEFAULT_PERCENTILES sampleTable rfl
    (by simp [get_lms_table, alookup, sampleGCData])

/-- The tail-region denominator of `normsinv` is positive for every
nonnegative `q` (all its coefficients are positive). -/
theorem acklamD_pos (q : ℝ) (h : 0 ≤ q) : 0 < acklamD q := by
  unfold acklamD nsD0 nsD1 nsD2 nsD3
  nlinarith [pow_nonneg h 2, pow_nonneg h 3, pow_nonneg h 4, mul_nonneg h h]

/-- The central-region denominator of `normsinv` is positive on the whole
range `0 ≤ r ≤ 0.47575²` the central region can produce: expanded around
the right endpoint it has only positive coefficients. -/
theorem acklamB_pos (r : ℝ) (h0 : 0 ≤ r) (h1 : r ≤ 0.2263380625) :
    0 < acklamB r := by
  have hs : (0:ℝ) ≤ 0.2263380625 - r := by linarith
  have key : acklamB r =
      136546660353858578832619715197102582369915693053 /
        52428800000000000000000000000000000000000000000000
      + 124940074899247866663301145524903689970083 /
          655360000000000000000000000000000000000000 * (0.2263380625 - r)
      + 90729850035630615089877326263732413 /
          20480000000000000000000000000000000 * (0.2263380625 - r) ^ 2
      + 47762425814269104031656483043 /
          1280000000000000000000000000 * (0.2263380625 - r) ^ 3
      + 15989722173647654254973 /
          160000000000000000000 * (0.2263380625 - r) ^ 4
      + 2723804939911203 /
          50000000000000 * (0.2263380625 - r) ^ 5 := by
    unfold acklamB nsB0 nsB1 nsB2 nsB3 nsB4
    ring
  have p1 : (0:ℝ) ≤ 124940074899247866663301145524903689970083 /
      655360000000000000000000000000000000000000 * (0.2263380625 - r) :=
    mul_nonneg (by norm_num) hs
  have p2 : (0:ℝ) ≤ 90729850035630615089877326263732413 /
      20480000000000000000000000000000000 * (0.2263380625 - r) ^ 2 :=
    mul_nonneg (by norm_num) (pow_nonneg hs 2)
  have p3 : (0:ℝ) ≤ 47762425814269104031656483043 /
      1280000000000000000000000000 * (0.2263380625 - r) ^ 3 :=
    mul_nonneg (by norm_num) (pow_nonneg hs 3)
  have p4 : (0:ℝ) ≤ 15989722173647654254973 /
      160000000000000000000 * (0.2263380625 - r) ^ 4 :=
    mul_nonneg (by norm_num) (pow_nonneg hs 4)
  have p5 : (0:ℝ) ≤ 2723804939911203 /
      50000000000000 * (0.2263380625 - r) ^ 5 :=
    mul_nonneg (by norm_num) (pow_nonneg hs 5)
  have p0 : (0:ℝ) < 136546660353858578832619715197102582369915693053 /
      52428800000000000000000000000000000000000000000000 := by norm_num
  rw [key]
  linarith

/-- Evaluation of `normsinv` on the lower tail `0 < p < plow`: no checked
operation raises, and the value is the tail rational approximation. -/
theorem normsinv_low_eq (p : ℝ) (h0 : 0 < p) (hp : p < plow) :
    normsinv p = .ok (acklamC (Real.sqrt (-2 * Real.log p)) /
      acklamD (Real.sqrt (-2 * Real.log p))) := by
  have hlog : Real.log p < 0 := Real.log_neg h0 (lt_trans hp (by norm_num [plow]))
  have hple : ¬ p ≤ 0 := not_le.mpr h0
  have hsq : ¬ (-2 * Real.log p < 0) := by nlinarith
  have hD : acklamD (Real.sqrt (-2 * Real.log p)) ≠ 0 :=
    ne_of_gt (acklamD_pos _ (Real.sqrt_nonneg _))
  simp only [normsinv, if_pos hp, pylog, if_neg hple, pysqrt, if_neg hsq,
    pydiv, if_neg hD]

/-- Evaluation of `normsinv` on the upper tail `phigh < p < 1`: the same
tail approximation at `q = sqrt(-2 log(1-p))`, negated. -/
theorem normsinv_high_eq (p : ℝ) (hp : phigh < p) (h1 : p < 1) :
    normsinv p = .ok (-(acklamC (Real.sqrt (-2 * Real.log (1 - p))) /
      acklamD (Real.sqrt (-2 * Real.log (1 - p))))) := by
  have hnl : ¬ p < plow :=
    not_lt.mpr (le_of_lt (lt_trans (by norm_num [plow, phigh]) hp))
  have h0p : 0 < 1 - p := by linarith
  have h1p : 1 - p < 1 := by
    have : (0:ℝ) < phigh := by norm_num [phigh, plow]
    linarith
  have hlog : Real.log (1 - p) < 0 := Real.log_neg h0p h1p
  have hple : ¬ (1 - p) ≤ 0 := not_le.mpr h0p
  have hsq : ¬ (-2 * Real.log (1 - p) < 0) := by nlinarith
  have hD : acklamD (Real.sqrt (-2 * Real.log (1 - p))) ≠ 0 :=
    ne_of_gt (acklamD_pos _ (Real.sqrt_nonneg _))
  simp only [normsinv, if_neg hnl, if_pos hp, pylog, if_neg hple, pysqrt,
    if_neg hsq, pydiv, if_neg hD, Except.map]

/-- Evaluation of `normsinv` on the central region `plow ≤ p ≤ phigh`: the
central rational approximation, whose denominator is nonzero there. -/
theorem normsinv_central_eq (p : ℝ) (hl : ¬ p < plow) (hh : ¬ phigh < p) :
    normsinv p = .ok (acklamA ((p - 0.5) * (p - 0.5)) * (p - 0.5) /
      acklamB ((p - 0.5) * (p - 0.5))) := by
  have hr0 : 0 ≤ (p - 0.5) * (p - 0.5) := mul_self_nonneg _
  have hrmax : (p - 0.5) * (p - 0.5) ≤ 0.2263380625 := by
    have hpl : plow ≤ p := not_lt.mp hl
    have hph : p ≤ phigh := not_lt.mp hh
    rw [plow] at hpl
    rw [phigh, plow] at hph
    nlinarith
  have hB : acklamB ((p - 0.5) * (p - 0.5)) ≠ 0 :=
    ne_of_gt (acklamB_pos _ hr0 hrmax)
  simp only [normsinv, if_neg hl, if_neg hh, pydiv, if_neg hB]

/-- C6: `normsinv(p)` fails with a domain error (`math.log` raises
`ValueError`) for every `p ≤ 0` and every `p ≥ 1`, and returns a value
without raising for every `p` strictly between `0` and `1`. -/
theorem normsinv_domain (p : ℝ) :
    ((p ≤ 0 ∨ 1 ≤ p) → normsinv p = .error .valueError) ∧
    (0 < p → p < 1 → ∃ y, normsinv p = .ok y) := by
  constructor
  · rintro (h | h)
    · have hp : p < plow := lt_of_le_of_lt h (by norm_num [plow])
      simp only [normsinv, if_pos hp, pylog, if_pos h]
    · have hnl : ¬ p < plow :=
        not_lt.mpr (le_trans (by norm_num [plow]) h)
      have hh : phigh < p := lt_of_lt_of_le (by norm_num [phigh, plow]) h
      have h1p : 1 - p ≤ 0 := by linarith
      simp only [normsinv, if_neg hnl, if_pos hh, pylog, if_pos h1p]
  · intro h0 h1
    by_cases hlow : p < plow
    · exact ⟨_, normsinv_low_eq p h0 hlow⟩
    · by_cases hhigh : phigh < p
      · exact ⟨_, normsinv_high_eq p hhigh h1⟩
      · exact ⟨_, normsinv_central_eq p hlow hhigh⟩

/-- Witness for C6: `normsinv 0` raises the domain error and
`normsinv (1/2)` returns a value. -/
theorem normsinv_domain_witness :
    normsinv 0 = .error .valueError ∧ ∃ y, normsinv (1 / 2) = .ok y :=
  ⟨(normsinv_domain 0).1 (Or.inl le_rfl),
   (normsinv_domain (1 / 2)).2 (by norm_num) (by norm_num)⟩

/-- C9: for `p` strictly between `0` and `1` (with `1 - p` also strictly
between `0` and `1`), `normsinv(1-p) = -normsinv(p)`: the lower- and
upper-tail branches use the same rational function with opposite sign at
the same `q = sqrt(-2 log(min(p, 1-p)))`, and the central branch is odd in
`q = p - 0.5`. -/
theorem normsinv_antisymmetric (p : ℝ) (h0 : 0 < p) (h1 : p < 1)
    (h2 : 0 < 1 - p) (h3 : 1 - p < 1) :
    ∃ y, normsinv p = .ok y ∧ normsinv (1 - p) = .ok (-y) := by
  by_cases hlow : p < plow
  · have hhigh' : phigh < 1 - p := by rw [phigh]; linarith
    refine ⟨_, normsinv_low_eq p h0 hlow, ?_⟩
    have h := normsinv_high_eq (1 - p) hhigh' h3
    rw [show (1 : ℝ) - (1 - p) = p from by ring] at h
    exact h
  · by_cases hhigh : phigh < p
    · have hlow' : 1 - p < plow := by rw [phigh] at hhigh; linarith
      refine ⟨_, normsinv_high_eq p hhigh h1, ?_⟩
      rw [neg_neg]
      exact normsinv_low_eq (1 - p) h2 hlow'
    · have hlow' : ¬ (1 - p) < plow := by
        rw [phigh] at hhigh; push_neg at hhigh ⊢; linarith
      have hhigh' : ¬ phigh < (1 - p) := by
        push_neg at hlow ⊢; rw [phigh]; linarith
      refine ⟨_, normsinv_central_eq p hlow hhigh, ?_⟩
      have h := normsinv_central_eq (1 - p) hlow' hhigh'
      rw [show ((1:ℝ) - p - 0.5) * ((1:ℝ) - p - 0.5) = (p - 0.5) * (p - 0.5)
        from by ring] at h
      rw [h]
      exact congrArg Except.ok (by ring)

/-- Witness for C9: the antisymmetry instantiated at `p = 1/4`. -/
theorem normsinv_antisymmetric_witness :
    ∃ y, normsinv (1 / 4 : ℝ) = .ok y ∧ normsinv (1 - 1 / 4) = .ok (-y) :=
  normsinv_antisymmetric (1 / 4) (by norm_num) (by norm_num) (by norm_num)
    (by norm_num)
